import Mathlib

/-!
Verification of the BreakingBadV5 signal-driven trade execution engine.

This file gives a shallow embedding, in Lean 4, of the parts of the
repository that the checked claims talk about:

* `run_trade` from `first_main.py` (the classic martingale execution loop),
* `SmartTradeManager.get_trade_details` and `SmartTradeManager.update_result`
  from `smart_trade.py` (the smart-martingale ledger),
* `clean_signal_line`, `parse_signal` and `parse_signals_from_text` from
  `signal_parser.py` (the signal normalizer), including a faithful
  backtracking matcher for the block-format regular expression,
* `parse_time_12h` from `timezone_utils.py`,
* `WebSocketManager.start_websocket` and `WebSocketManager.send_message`
  from `wsmanager/iqwebsocket.py`.

External effects (the venue API, the wall clock, the socket) are modelled as
explicit inputs: an oracle giving the outcome of each attempt, the current
time as a value, the socket-open flag as a function of the poll index.
Machine floats appearing in the source carry exactly representable values
here (stakes as rationals, times as integer microseconds), so the embedding
uses `Rat` and `Nat`.  Python functions that may raise are embedded as
`Option`-valued functions; a function embedded with a plain result type has
no reachable `raise` in its source.
-/

set_option maxRecDepth 10000

namespace BreakingBad

/-! ## 1. Classic execution loop (`first_main.py`, `run_trade`)

The venue API is an oracle: for every gale index it tells whether order
placement succeeded (`execute_digital_option_trade`), and what
`get_trade_outcome` returned for that attempt (the `pnl_ok` resolved flag
and the profit value).  Balances and logging have no effect on control
flow and are omitted. -/

/-- Outcome data the API oracle supplies for one attempt index. -/
structure AttemptOutcome where
  placeOk : Bool
  pnlOk : Bool
  pnl : ℚ
deriving DecidableEq

/-- One placed attempt, as recorded by the loop: the stake actually wagered
and the outcome-query answer for it. -/
structure Attempt where
  stake : ℚ
  pnlOk : Bool
  pnl : ℚ
deriving DecidableEq

/-- How a `run_trade` call ended. -/
inductive RunEnd where
  | placeFailed
  | win
  | lostAll
deriving DecidableEq

/-- The body of `run_trade`: `for gale in range(max_gales + 1)` with
`remaining` iterations left, current stake `amount`, current loop index
`gale`.  Mirrors `first_main.py` lines 58-97: placement failure returns at
once recording no attempt; a resolved positive profit (`pnl_ok and pnl > 0`)
returns WIN; every other outcome falls into the `else` branch which doubles
the stake (`current_amount *= 2`) and continues. -/
def run_trade_loop (api : ℕ → AttemptOutcome) (amount : ℚ) (gale : ℕ) :
    (remaining : ℕ) → List Attempt × RunEnd
  | 0 => ([], .lostAll)
  | r + 1 =>
    let o := api gale
    if o.placeOk = false then ([], .placeFailed)
    else if o.pnlOk = true ∧ 0 < o.pnl then ([⟨amount, o.pnlOk, o.pnl⟩], .win)
    else
      let rest := run_trade_loop api (amount * 2) (gale + 1) r
      (⟨amount, o.pnlOk, o.pnl⟩ :: rest.1, rest.2)

/-- `run_trade(api, asset, direction, expiry, amount, max_gales)`: the whole
loop, starting at gale 0 with the base stake.  Asset, direction and expiry
only flow into the oracle calls and the logs, so they are absorbed into the
oracle. -/
def run_trade (api : ℕ → AttemptOutcome) (amount : ℚ) (max_gales : ℕ) :
    List Attempt × RunEnd :=
  run_trade_loop api amount 0 (max_gales + 1)

/-! ## 2. Smart martingale ledger (`smart_trade.py`) -/

/-- The configuration attributes `smart_trade.py` reads from `settings.config`. -/
structure Config where
  smart_martingale : Bool
  max_martingale_gales : ℕ
  martingale_multiplier : ℚ

/-- One per-asset ledger entry, `{"level": n, "last_result": r}`. -/
structure SmartState where
  level : ℕ
  last_result : Option String
deriving DecidableEq

/-- The `self.states` dictionary, as a partial map from asset names. -/
abbrev SmartStates := String → Option SmartState

/-- `self.states.get(asset, {"level": 0})["level"]`. -/
def ledger_level (states : SmartStates) (asset : String) : ℕ :=
  ((states asset).getD ⟨0, none⟩).level

/-- `SmartTradeManager.get_trade_details` (`smart_trade.py` lines 14-38):
returns the `(amount, max_gales)` pair for the next trade. -/
def get_trade_details (cfg : Config) (states : SmartStates) (asset : String)
    (base_amount : ℚ) : ℚ × ℕ :=
  if cfg.smart_martingale = false then (base_amount, cfg.max_martingale_gales)
  else
    let level := ledger_level states asset
    let amount :=
      if level = 0 then base_amount
      else base_amount * cfg.martingale_multiplier ^ level
    (amount, 0)

/-- `SmartTradeManager.update_result` (`smart_trade.py` lines 40-64): the
new `self.states` map after recording `result` for `asset`. -/
def update_result (cfg : Config) (states : SmartStates) (asset : String)
    (result : String) : SmartStates :=
  if cfg.smart_martingale = false then states
  else
    let level := ledger_level states asset
    if result = "WIN" then
      fun a => if a = asset then some ⟨0, some "WIN"⟩ else states a
    else if result = "LOSS" then
      if level < cfg.max_martingale_gales then
        fun a => if a = asset then some ⟨level + 1, some "LOSS"⟩ else states a
      else
        fun a => if a = asset then some ⟨0, some "RESET"⟩ else states a
    else states

/-! ## 3. Signal normalizer (`signal_parser.py`)

Python string primitives, restricted to the ASCII inputs the parser deals
with (`str.strip`, `str.upper`, `str.split`, membership, `int` over digit
strings). -/

/-- The characters `str.strip()` removes (ASCII whitespace). -/
def isPySpace (c : Char) : Bool :=
  c = ' ' ∨ c = '\t' ∨ c = '\n' ∨ c = '\r' ∨ c = Char.ofNat 11 ∨ c = Char.ofNat 12

/-- `str.strip()` on a character list. -/
def pyStrip (cs : List Char) : List Char :=
  ((cs.dropWhile isPySpace).reverse.dropWhile isPySpace).reverse

/-- ASCII `str.upper()`. -/
def pyUpper (cs : List Char) : List Char :=
  cs.map Char.toUpper

/-- `str.split(sep)` for a one-character separator: keeps empty fields, and
yields `[""]` on the empty string, exactly like Python. -/
def pySplit (sep : Char) : List Char → List (List Char)
  | [] => [[]]
  | c :: rest =>
    let tail := pySplit sep rest
    if c = sep then [] :: tail
    else
      match tail with
      | h :: t => (c :: h) :: t
      | [] => [[c]]

/-- `"pat" in s` (substring membership). -/
def pyContains (pat : List Char) : List Char → Bool
  | [] => pat.isEmpty
  | c :: rest => pat.isPrefixOf (c :: rest) || pyContains pat rest

/-- `int(s)` for a string of decimal digits; `none` models the `ValueError`
raised on anything else (sign/whitespace forms never occur here). -/
def pyIntDigits (cs : List Char) : Option ℕ :=
  if cs ≠ [] ∧ cs.all Char.isDigit then
    some (cs.foldl (fun n c => 10 * n + (c.toNat - 48)) 0)
  else none

/-- `re.sub(r"[Oo](\d)", r"0\1", line)`: an `O`/`o` directly followed by a
digit becomes `0` followed by that digit; matches are non-overlapping,
scanning left to right. -/
def subODigit : List Char → List Char
  | a :: b :: rest =>
    if (a = 'O' ∨ a = 'o') ∧ b.isDigit then '0' :: b :: subODigit rest
    else a :: subODigit (b :: rest)
  | [a] => [a]
  | [] => []

/-- `re.sub(r"[Oo]\s*:", "0:", line)`: an `O`/`o` followed by optional
whitespace and a colon becomes `0:`.  Fuel is the list length plus one;
every step consumes at least one character, so it never runs out. -/
def subOColon : ℕ → List Char → List Char
  | 0, cs => cs
  | _ + 1, [] => []
  | fuel + 1, a :: rest =>
    if a = 'O' ∨ a = 'o' then
      match rest.dropWhile isPySpace with
      | ':' :: tail => '0' :: ':' :: subOColon fuel tail
      | _ => a :: subOColon fuel rest
    else a :: subOColon fuel rest

/-- `re.sub(r"\s+", ";", line)`: each maximal whitespace run becomes one
semicolon. -/
def wsToSemi : ℕ → List Char → List Char
  | 0, cs => cs
  | _ + 1, [] => []
  | fuel + 1, c :: rest =>
    if isPySpace c then ';' :: wsToSemi fuel (rest.dropWhile isPySpace)
    else c :: wsToSemi fuel rest

/-- Characters of the recovery character class (letters, digits, colon,
slash, hyphen) under `re.IGNORECASE`. -/
def isRecClass (c : Char) : Bool :=
  (('A' ≤ c ∧ c ≤ 'Z') ∨ ('a' ≤ c ∧ c ≤ 'z') ∨ c.isDigit ∨
    c = ':' ∨ c = '/' ∨ c = '-')

/-- `(\d{1,2}:\d{2})` tried at the head of the list: returns the number of
characters matched (regex `{1,2}` is greedy, so two digits are preferred). -/
def timeMatchLen : List Char → Option ℕ
  | d1 :: d2 :: ':' :: d3 :: d4 :: _ =>
    if d1.isDigit ∧ d2.isDigit ∧ d3.isDigit ∧ d4.isDigit then some 5
    else if d1.isDigit ∧ d2 = ':' ∧ d3.isDigit then some 4 else none
  | d1 :: d2 :: d3 :: d4 :: _ =>
    if d1.isDigit ∧ d2 = ':' ∧ d3.isDigit ∧ d4.isDigit then some 4 else none
  | _ => none

/-- One attempt of the recovery pattern (a time `\d{1,2}:\d{2}`, or 3 to 15
recovery-class characters, or CALL, or PUT, or `\d{1,2}`) at the head of
the list; alternatives are tried in this order, each greedily.  Returns the
matched length. -/
def recMatchLen (cs : List Char) : Option ℕ :=
  match timeMatchLen cs with
  | some n => some n
  | none =>
    let run := (cs.takeWhile isRecClass).take 15
    if 3 ≤ run.length then some run.length
    else if ['C', 'A', 'L', 'L'].isPrefixOf (pyUpper cs) then some 4
    else if ['P', 'U', 'T'].isPrefixOf (pyUpper cs) then some 3
    else
      match cs with
      | d1 :: d2 :: _ => if d1.isDigit then (if d2.isDigit then some 2 else some 1) else none
      | [d1] => if d1.isDigit then some 1 else none
      | [] => none

/-- `re.findall` of the recovery pattern: scan left to right, at each
position try the pattern, on success record the matched text and continue
after it, otherwise advance one character. -/
def recFindall : ℕ → List Char → List (List Char)
  | 0, _ => []
  | _ + 1, [] => []
  | fuel + 1, c :: rest =>
    match recMatchLen (c :: rest) with
    | some n => (c :: rest).take n :: recFindall fuel ((c :: rest).drop n)
    | none => recFindall fuel rest

/-- `";".join(parts)`. -/
def joinSemi : List (List Char) → List Char
  | [] => []
  | [p] => p
  | p :: rest => p ++ ';' :: joinSemi rest

/-- `clean_signal_line` (`signal_parser.py` lines 8-44): strip, turn `i`
into `;`, repair `O`-for-zero typos, collapse whitespace to `;` when no
semicolon is present, drop spaces, and when fewer than three semicolons
remain try the regex recovery, joining at least four recovered parts with
semicolons. -/
def clean_signal_line (line : String) : String :=
  let l0 := pyStrip line.data
  let l1 := l0.map (fun c => if c = 'i' then ';' else c)
  let l2 := subODigit l1
  let l3 := subOColon (l2.length + 1) l2
  let l4 := if l3.contains ';' then l3 else wsToSemi (l3.length + 1) l3
  let l5 := l4.filter (fun c => c ≠ ' ')
  let l6 :=
    if l5.count ';' < 3 then
      let flat := recFindall (l5.length + 1) l5
      if 4 ≤ flat.length then joinSemi flat else l5
    else l5
  String.mk l6

/-- The dictionary `parse_signal` returns. -/
structure Sig where
  time : String
  pair : String
  direction : String
  expiry : ℕ
deriving DecidableEq

/-- `re.match(r"^\d{1,2}:\d{2}$", s)` as a Boolean (the argument is already
stripped, so the `$`-before-trailing-newline case cannot arise). -/
def timeFullMatch (s : String) : Bool :=
  match s.data with
  | [h1, ':', m1, m2] => h1.isDigit ∧ m1.isDigit ∧ m2.isDigit
  | [h1, h2, ':', m1, m2] => h1.isDigit ∧ h2.isDigit ∧ m1.isDigit ∧ m2.isDigit
  | _ => false

/-- `parse_signal` (`signal_parser.py` lines 47-90).  The `try` body can
only raise where `int()` is applied, and that application is guarded by the
digit search, so the embedding is a total `Option`: `none` is Python
`None`.  Fewer than four `;`-separated parts, an expiry with no digit, a
malformed time or a direction other than CALL/PUT all yield `none`; the
source expresses the last check as `if direction not in [..]: return None`. -/
def parse_signal (line : String) : Option Sig :=
  match pySplit ';' (clean_signal_line line).data with
  | t0 :: p1 :: d2 :: e3 :: _ =>
    let time_str := pyStrip t0
    let pair := (pyUpper p1).filter (fun c => c ≠ '/')
    let direction := pyUpper d2
    if e3.any Char.isDigit = false then none
    else if timeFullMatch (String.mk time_str) = false then none
    else if direction = "CALL".data ∨ direction = "PUT".data then
      some ⟨String.mk time_str, String.mk pair, String.mk direction,
        (e3.filter Char.isDigit).foldl (fun n c => 10 * n + (c.toNat - 48)) 0⟩
    else none
  | _ => none

/-! ### Backtracking regex matcher for the block format

`parse_signals_from_text` first runs `block_pattern.findall(text)`.  The
matcher below implements Python `re` semantics for the constructs that
pattern uses: ordered alternation, greedy and lazy star and option,
single-character classes (with `re.DOTALL` the dot is just the always-true
class), and numbered capture groups.  Results are produced in Python
backtracking priority order, so the head of the result list is exactly the
match Python finds.  The fuel argument only bounds star iterations; every
iteration of every star in the block pattern consumes at least one
character, so fuel `length + 1` can never be exhausted. -/

/-- Regular expressions, Python-style. -/
inductive RE where
  | eps
  | cls (p : Char → Bool)
  | cat (a b : RE)
  | alt (a b : RE)
  | star (greedy : Bool) (a : RE)
  | opt (greedy : Bool) (a : RE)
  | grp (idx : ℕ) (a : RE)

/-- Capture environment: group index paired with captured text, most
recent first. -/
abbrev Caps := List (ℕ × List Char)

/-- Structural size of a regex, used to compute a sufficient fuel bound. -/
def reSize : RE → ℕ
  | .eps => 1
  | .cls _ => 1
  | .cat a b => reSize a + reSize b + 1
  | .alt a b => reSize a + reSize b + 1
  | .star _ a => reSize a + 1
  | .opt _ a => reSize a + 1
  | .grp _ a => reSize a + 1

/-- All ways `re` can match a prefix of `s`, as pairs of remaining suffix
and captures, in Python backtracking priority order.  The recursion is
structural on the fuel, which drops by one at every call; along any chain
of calls the pair (suffix length, regex size) decreases lexicographically
(star iterations are filtered to consume at least one character), so a
fuel of `(s.length + 2) * (reSize re + 2)` can never run out and the
fuel-exhausted value is unreachable from `reMatchHead`. -/
def reMatch : ℕ → RE → List Char → Caps → List (List Char × Caps)
  | 0, _, _, _ => []
  | f + 1, re, s, g =>
    match re with
    | .eps => [(s, g)]
    | .cls p =>
      match s with
      | [] => []
      | c :: cs => if p c then [(cs, g)] else []
    | .cat a b => (reMatch f a s g).flatMap (fun r => reMatch f b r.1 r.2)
    | .alt a b => reMatch f a s g ++ reMatch f b s g
    | .opt gr a =>
      if gr then reMatch f a s g ++ [(s, g)] else (s, g) :: reMatch f a s g
    | .grp i a =>
      (reMatch f a s g).map (fun r => (r.1, (i, s.take (s.length - r.1.length)) :: r.2))
    | .star gr a =>
      let step := (reMatch f a s g).filter (fun r => r.1.length < s.length)
      let more := step.flatMap (fun r => reMatch f (.star gr a) r.1 r.2)
      if gr then more ++ [(s, g)] else (s, g) :: more

/-- The first (Python) match of `re` at the head of `s`: consumed length
and captures. -/
def reMatchHead (re : RE) (s : List Char) : Option (ℕ × Caps) :=
  match reMatch ((s.length + 2) * (reSize re + 2)) re s [] with
  | [] => none
  | r :: _ => some (s.length - r.1.length, r.2)

/-- `re.findall` semantics: scan left to right, record each match and
continue after it (advancing one character past a zero-width match). -/
def reFindall : ℕ → RE → List Char → List Caps
  | 0, _, _ => []
  | f + 1, re, s =>
    match reMatchHead re s with
    | none =>
      match s with
      | [] => []
      | _ :: t => reFindall f re t
    | some (n, caps) =>
      if n = 0 then
        match s with
        | [] => [caps]
        | _ :: t => caps :: reFindall f re t
      else caps :: reFindall f re (s.drop n)

/-- Captured text of group `i` (empty string when the group did not
participate in the match, like Python `findall` tuples). -/
def capsGet (caps : Caps) (i : ℕ) : List Char :=
  ((caps.find? (fun p => p.1 = i)).map Prod.snd).getD []

/-- A literal, matched case-insensitively (`re.IGNORECASE`). -/
def litCI (s : String) : RE :=
  s.data.foldr (fun c r => .cat (.cls (fun x => x.toLower = c.toLower)) r) .eps

/-- `.` under `re.DOTALL`. -/
def reAny : RE := .cls (fun _ => true)

/-- `\s`. -/
def reWs : RE := .cls isPySpace

/-- `\d`. -/
def reDigit : RE := .cls Char.isDigit

/-- `[A-Z]` under `re.IGNORECASE`. -/
def reAlpha : RE := .cls (fun c => ('A' ≤ c ∧ c ≤ 'Z') ∨ ('a' ≤ c ∧ c ≤ 'z'))

/-- `\s*`. -/
def reWsStar : RE := .star true reWs

/-- `e+` (greedy). -/
def rePlus (e : RE) : RE := .cat e (.star true e)

/-- Three letters, a slash, three letters: `[A-Z]{3}/[A-Z]{3}`. -/
def rePair : RE :=
  .cat reAlpha (.cat reAlpha (.cat reAlpha
    (.cat (.cls (fun c => c = '/')) (.cat reAlpha (.cat reAlpha reAlpha)))))

/-- The block-format pattern of `parse_signals_from_text`
(`signal_parser.py` lines 103-106), compiled with `DOTALL` and
`IGNORECASE`:
time group `\d{1,2}:\d{2}` is a digit, an optional digit, a colon and two
digits; group numbering follows the source: 1 pair, 2 OTC tag, 3 timer,
4 entry time, 5 meridiem, 6 direction. -/
def blockPattern : RE :=
  .cat (litCI "Trade:") (.cat reWsStar
  (.cat (.opt true (.cat (.star true reAny) (rePlus reWs)))
  (.cat (.grp 1 rePair)
  (.cat reWsStar
  (.cat (.opt true (.star false reAny))
  (.cat (.opt true (.grp 2 (litCI "(OTC)")))
  (.cat (.star false reAny)
  (.cat (litCI "Timer:")
  (.cat reWsStar
  (.cat (.grp 3 (rePlus reDigit))
  (.cat reWsStar
  (.cat (litCI "minutes")
  (.cat (.star false reAny)
  (.cat (litCI "Entry:")
  (.cat reWsStar
  (.cat (.grp 4 (.cat reDigit (.cat (.opt true reDigit)
    (.cat (.cls (fun c => c = ':')) (.cat reDigit reDigit)))))
  (.cat reWsStar
  (.cat (.opt true (.grp 5 (.alt (litCI "AM") (litCI "PM"))))
  (.cat (.star false reAny)
  (.cat (litCI "Direction:")
  (.cat reWsStar
  (.grp 6 (.alt (litCI "SELL") (litCI "BUY"))))))))))))))))))))))))

/-- One tuple produced by `block_pattern.findall`. -/
structure BlockMatch where
  pair : List Char
  otc : List Char
  timer : List Char
  entry : List Char
  meridiem : List Char
  direction : List Char
deriving DecidableEq

/-- `block_pattern.findall(text)`. -/
def blockFindall (text : String) : List BlockMatch :=
  (reFindall (text.data.length + 1) blockPattern text.data).map
    (fun caps =>
      ⟨capsGet caps 1, capsGet caps 2, capsGet caps 3,
       capsGet caps 4, capsGet caps 5, capsGet caps 6⟩)

/-- Zero-padded two-digit rendering, as `datetime.strftime` produces for
`%H`/`%M`. -/
def pad2 (n : ℕ) : List Char :=
  if n < 10 then '0' :: (Nat.toDigits 10 n) else Nat.toDigits 10 n

/-- The body of the block-format `for` loop in `parse_signals_from_text`
(`signal_parser.py` lines 109-141) for one `findall` tuple; `none` models
the `except` branch (a `strptime`/`int` failure logs and skips the tuple).
`strptime(.., "%I:%M %p")` accepts hours 1 to 12 and minutes up to 59 and
a meridiem of AM or PM, and the result is reformatted as a 24-hour
`HH:MM`. -/
def parseBlockMatch (m : BlockMatch) : Option Sig :=
  let pair0 := m.pair.filter (fun c => c ≠ '/')
  let pair := if m.otc ≠ [] ∧ ¬ pyContains "OTC".data pair0 then
      pair0 ++ "-OTC".data else pair0
  match pyIntDigits m.timer with
  | none => none
  | some timer =>
    let meridiem := pyUpper m.meridiem
    let time_str? : Option (List Char) :=
      if meridiem = [] then some m.entry
      else
        match pySplit ':' m.entry with
        | [hs, ms] =>
          match pyIntDigits hs, pyIntDigits ms with
          | some h, some mm =>
            if 1 ≤ h ∧ h ≤ 12 ∧ mm ≤ 59 ∧
                (meridiem = "AM".data ∨ meridiem = "PM".data) then
              let h24 :=
                if meridiem = "PM".data ∧ h ≠ 12 then h + 12
                else if meridiem = "AM".data ∧ h = 12 then 0
                else h
              some (pad2 h24 ++ ':' :: pad2 mm)
            else none
          | _, _ => none
        | _ => none
    match time_str? with
    | none => none
    | some time_str =>
      let direction := if pyContains "SELL".data (pyUpper m.direction)
        then "PUT" else "CALL"
      some ⟨String.mk time_str, String.mk pair, direction, timer⟩

/-! ### Compact fallback path -/

/-- `re.split(r"(\d{1,2}:\d{2})", text)`: the segments between matches of
the time pattern, with each matched time kept in the output list.  The
result always has odd length: segment, match, segment, ..., segment. -/
def timeSplit : ℕ → List Char → List Char → List (List Char)
  | 0, acc, cs => [acc.reverse ++ cs]
  | _ + 1, acc, [] => [acc.reverse]
  | fuel + 1, acc, c :: rest =>
    match timeMatchLen (c :: rest) with
    | some n =>
      acc.reverse :: (c :: rest).take n :: timeSplit fuel [] ((c :: rest).drop n)
    | none => timeSplit fuel (c :: acc) rest

/-- The `(parts[i], parts[i+1])` pairs visited by
`for i in range(1, len(parts), 2)`. -/
def chunkPairs : List (List Char) → List (String × String)
  | _ :: t :: b :: rest => (String.mk t, String.mk b) :: chunkPairs (b :: rest)
  | _ => []

/-- One iteration of the compact loop as a partial function: `none` when
the chunk is skipped (block keyword present or `parse_signal` rejects). -/
def chunkParse (tb : String × String) : Option Sig :=
  if pyContains "Trade:".data tb.2.data then none
  else parse_signal (tb.1 ++ tb.2)

/-- The compact-format `for` loop of `parse_signals_from_text`
(`signal_parser.py` lines 154-169): chunks containing `Trade:` are skipped,
`parse_signal` is applied to time plus body, `None` results are dropped. -/
def processChunks : List (String × String) → List Sig
  | [] => []
  | tb :: rest =>
    if pyContains "Trade:".data tb.2.data then processChunks rest
    else
      match parse_signal (tb.1 ++ tb.2) with
      | some sig => sig :: processChunks rest
      | none => processChunks rest

/-- `parse_signals_from_text` (`signal_parser.py` lines 94-174): the block
format is tried first and wins when it produced at least one signal,
otherwise the text is split at time patterns and each chunk goes through
`parse_signal`. -/
def parse_signals_from_text (text : String) : List Sig :=
  let blockSigs := (blockFindall text).filterMap parseBlockMatch
  if blockSigs ≠ [] then blockSigs
  else processChunks (chunkPairs (timeSplit (text.data.length + 1) [] text.data))

/-! ## 4. Timezone utilities (`timezone_utils.py`, `parse_time_12h`)

A timezone-aware instant is modelled as an ordinal day number plus the
microseconds elapsed since that day's midnight (the configured timezone is
fixed, so offsets cancel everywhere).  `total_seconds()` of a difference of
such instants on the same day is exact in microseconds, and the float
comparison `delta < 1800` is exact as well. -/

/-- A wall-clock instant: day ordinal and microseconds since midnight. -/
structure Instant where
  day : ℕ
  us : ℕ
deriving DecidableEq

/-- The 12-hour to 24-hour conversion at the top of `parse_time_12h`. -/
def to24h (hour : ℕ) (am_pm : String) : ℕ :=
  if pyUpper am_pm.data = "PM".data ∧ hour ≠ 12 then hour + 12
  else if pyUpper am_pm.data = "AM".data ∧ hour = 12 then 0
  else hour

/-- `parse_time_12h(hour, minute, am_pm)` (`timezone_utils.py` lines
71-104), with the current instant made explicit.  `entry_time` is today at
the converted hour and minute with seconds and microseconds zeroed; if it
is in the past, a delay below the 1800-second grace window keeps it today,
otherwise one day is added. -/
def parse_time_12h (hour minute : ℕ) (am_pm : String) (current : Instant) :
    Instant :=
  let entry_us := (to24h hour am_pm * 3600 + minute * 60) * 1000000
  if entry_us < current.us then
    let delta := current.us - entry_us
    if delta < 1800 * 1000000 then ⟨current.day, entry_us⟩
    else ⟨current.day + 1, entry_us⟩
  else ⟨current.day, entry_us⟩

/-! ## 5. WebSocket manager (`wsmanager/iqwebsocket.py`)

`start_websocket` spawns the socket thread and then busy-waits on the
`ws_is_open` flag.  The flag history is an explicit input: `openAt k` is
the value the loop reads at its `k`-th iteration (one iteration per 100 ms
sleep).  The elapsed time checked against the 10-second timeout is `k / 10`
seconds at iteration `k`.  The method has no `raise` anywhere, so its
embedding wraps the result in `Except ConnectionErr` to make the absence of
an exceptional exit a stated fact rather than a typing accident. -/

/-- The only error the claim expects `start_websocket` to raise. -/
inductive ConnectionErr where
  | connectionError
deriving DecidableEq

/-- How the handshake wait loop ended: flag observed open at poll `k`, or
timeout after the elapsed-time check failed. -/
inductive WaitOutcome where
  | opened (k : ℕ)
  | timedOut
deriving DecidableEq

/-- The `while not self.ws_is_open` loop of `start_websocket`
(`wsmanager/iqwebsocket.py` lines 57-64): at iteration `k` the flag is read
first; if still false the elapsed time `k * 100` ms is compared against the
10-second timeout (strictly), and the loop breaks on excess, else sleeps
100 ms and repeats.  Fuel 102 suffices: the timeout check stops the loop at
`k = 101` at the latest. -/
def ws_wait_loop (openAt : ℕ → Bool) : ℕ → ℕ → WaitOutcome
  | 0, _ => .timedOut
  | fuel + 1, k =>
    if openAt k then .opened k
    else if 100 * k > 10000 then .timedOut
    else ws_wait_loop openAt fuel (k + 1)

/-- `start_websocket` (`wsmanager/iqwebsocket.py` lines 35-64): resets the
flags, spawns the socket thread, then runs the wait loop.  On timeout it
logs an error and falls through — the source contains no `raise`, so every
path returns `Except.ok`. -/
def start_websocket (openAt : ℕ → Bool) : Except ConnectionErr WaitOutcome :=
  .ok (ws_wait_loop openAt 102 0)

/-- A Python value that is either a string or an integer, the two shapes
`request_id` can take in `send_message`. -/
inductive PyVal where
  | str (v : String)
  | int (v : ℕ)
deriving DecidableEq

/-- The JSON frame `send_message` transmits:
`json.dumps(dict(name=name, msg=msg, request_id=request_id))`. -/
structure Frame where
  name : String
  msg : PyVal
  request_id : PyVal
deriving DecidableEq

/-- `send_message(name, msg, request_id)` (`wsmanager/iqwebsocket.py` lines
66-91), with `str(time.time())` made an explicit input `now`.  An empty
`request_id` is replaced by `int(str(time.time()).split(".")[1])`; the
indexing raises when `now` has no dot and `int` raises on non-digits, both
modelled by `none`.  Returns the transmitted frame together with the value
the method returns. -/
def send_message (now : String) (name : String) (msg : PyVal)
    (request_id : String) : Option (Frame × PyVal) :=
  if request_id = "" then
    match (pySplit '.' now.data).get? 1 with
    | none => none
    | some frac =>
      match pyIntDigits frac with
      | none => none
      | some n => some (⟨name, msg, .int n⟩, .int n)
  else some (⟨name, msg, .str request_id⟩, .str request_id)

/-! ## 6. Properties of the classic execution loop -/

/-- The loop makes at most `remaining` attempts. -/
lemma run_trade_loop_length_le (api : ℕ → AttemptOutcome) :
    ∀ (r : ℕ) (a : ℚ) (g : ℕ), (run_trade_loop api a g r).1.length ≤ r := by
  intro r
  induction r with
  | zero => intro a g; simp [run_trade_loop]
  | succ n ih =>
    intro a g
    by_cases hp : (api g).placeOk = false
    · simp [run_trade_loop, hp]
    · by_cases hw : (api g).pnlOk = true ∧ 0 < (api g).pnl
      · simp [run_trade_loop, hp, hw]
      · simpa [run_trade_loop, hp, hw] using ih (a * 2) (g + 1)

/-- Every recorded attempt is fully determined: attempt `i` of the loop
started at stake `a` and gale `g` wagers `a * 2 ^ i` and carries the
oracle answer for gale `g + i`. -/
lemma run_trade_loop_get (api : ℕ → AttemptOutcome) :
    ∀ (r : ℕ) (a : ℚ) (g i : ℕ) (h : i < (run_trade_loop api a g r).1.length),
      (run_trade_loop api a g r).1.get ⟨i, h⟩ =
        ⟨a * 2 ^ i, (api (g + i)).pnlOk, (api (g + i)).pnl⟩ := by
  intro r
  induction r with
  | zero => intro a g i h; simp [run_trade_loop] at h
  | succ n ih =>
    intro a g i h
    by_cases hp : (api g).placeOk = false
    · simp [run_trade_loop, hp] at h
    · by_cases hw : (api g).pnlOk = true ∧ 0 < (api g).pnl
      · have h1 : i < 1 := by simpa [run_trade_loop, hp, hw] using h
        have hi0 : i = 0 := by omega
        subst hi0
        simp [run_trade_loop, hp, hw]
      · match i with
        | 0 => simp [run_trade_loop, hp, hw]
        | j + 1 =>
          have h2 : j < (run_trade_loop api (a * 2) (g + 1) n).1.length := by
            have := h
            simp only [run_trade_loop, hp, if_false, hw] at this
            simpa using Nat.lt_of_succ_lt_succ (by simpa using this)
          have hrec := ih (a * 2) (g + 1) j h2
          have hget : (run_trade_loop api a g (n + 1)).1.get ⟨j + 1, h⟩ =
              (run_trade_loop api (a * 2) (g + 1) n).1.get ⟨j, h2⟩ := by
            simp [run_trade_loop, hp, hw]
          rw [hget, hrec]
          have harg : g + 1 + j = g + (j + 1) := by omega
          rw [harg]
          congr 1
          ring_nf

/-- No attempt before the last recorded one is a resolved win: the loop
returns right after a win, so anything that has a successor in the list
fell into the `else` branch. -/
lemma run_trade_loop_no_early_win (api : ℕ → AttemptOutcome) :
    ∀ (r : ℕ) (a : ℚ) (g i : ℕ), i + 1 < (run_trade_loop api a g r).1.length →
      ¬((api (g + i)).pnlOk = true ∧ 0 < (api (g + i)).pnl) := by
  intro r
  induction r with
  | zero => intro a g i h; simp [run_trade_loop] at h
  | succ n ih =>
    intro a g i h
    by_cases hp : (api g).placeOk = false
    · simp [run_trade_loop, hp] at h
    · by_cases hw : (api g).pnlOk = true ∧ 0 < (api g).pnl
      · simp [run_trade_loop, hp, hw] at h
      · match i with
        | 0 => simpa using hw
        | j + 1 =>
          have h2 : j + 1 < (run_trade_loop api (a * 2) (g + 1) n).1.length := by
            have := h
            simp only [run_trade_loop, hp, if_false, hw] at this
            simpa using Nat.lt_of_succ_lt_succ (by simpa using this)
          have := ih (a * 2) (g + 1) j h2
          simpa [Nat.add_assoc, Nat.add_comm 1 j] using this

/-- If the first placement succeeds the loop records at least one attempt. -/
lemma run_trade_loop_pos_len (api : ℕ → AttemptOutcome) (a : ℚ) (g m : ℕ)
    (hp : (api g).placeOk = true) :
    0 < (run_trade_loop api a g (m + 1)).1.length := by
  have hp' : ¬((api g).placeOk = false) := by simp [hp]
  by_cases hw : (api g).pnlOk = true ∧ 0 < (api g).pnl
  · simp [run_trade_loop, hp', hw]
  · simp [run_trade_loop, hp', hw]

/-- After a recorded non-winning attempt the loop starts the next attempt,
provided iterations remain and the next placement succeeds. -/
lemma run_trade_loop_extend (api : ℕ → AttemptOutcome) :
    ∀ (r : ℕ) (a : ℚ) (g i : ℕ), i < (run_trade_loop api a g r).1.length →
      ¬((api (g + i)).pnlOk = true ∧ 0 < (api (g + i)).pnl) →
      i + 1 < r → (api (g + i + 1)).placeOk = true →
      i + 1 < (run_trade_loop api a g r).1.length := by
  intro r
  induction r with
  | zero => intro a g i h; simp [run_trade_loop] at h
  | succ n ih =>
    intro a g i h hnw hr hplace
    by_cases hp : (api g).placeOk = false
    · simp [run_trade_loop, hp] at h
    · by_cases hw : (api g).pnlOk = true ∧ 0 < (api g).pnl
      · have h1 : i < 1 := by simpa [run_trade_loop, hp, hw] using h
        have hi0 : i = 0 := by omega
        subst hi0
        simpa using hnw hw
      · match i with
        | 0 =>
          obtain ⟨m, hm⟩ : ∃ m, n = m + 1 := ⟨n - 1, by omega⟩
          subst hm
          have hpos := run_trade_loop_pos_len api (a * 2) (g + 1) m
            (by simpa using hplace)
          simp only [run_trade_loop, hp, if_false, hw]
          simpa using Nat.succ_lt_succ hpos
        | j + 1 =>
          have h2 : j < (run_trade_loop api (a * 2) (g + 1) n).1.length := by
            have := h
            simp only [run_trade_loop, hp, if_false, hw] at this
            simpa using Nat.lt_of_succ_lt_succ (by simpa using this)
          have hnw2 : ¬((api (g + 1 + j)).pnlOk = true ∧ 0 < (api (g + 1 + j)).pnl) := by
            have heq : g + 1 + j = g + (j + 1) := by omega
            rw [heq]; exact hnw
          have hplace2 : (api (g + 1 + j + 1)).placeOk = true := by
            have heq : g + 1 + j + 1 = g + (j + 1) + 1 := by omega
            rw [heq]; exact hplace
          have := ih (a * 2) (g + 1) j h2 hnw2 (by omega) hplace2
          simp only [run_trade_loop, hp, if_false, hw]
          simpa using Nat.succ_lt_succ this

/-- An oracle on which every placement succeeds and no outcome query ever
resolves (`pnl_ok` false, profit 0). -/
def apiAllLoss : ℕ → AttemptOutcome := fun _ => ⟨true, false, 0⟩

/-- An oracle whose first attempt is placed but unresolved, and whose
second attempt is placed and resolves as a win of 1. -/
def apiUnresolvedThenWin : ℕ → AttemptOutcome := fun g =>
  if g = 0 then ⟨true, false, 0⟩ else ⟨true, true, 1⟩

/-- C1, counterexample: running `run_trade` with base stake 1 and two gales
allowed against `apiUnresolvedThenWin`, attempt 0 comes back unresolved
(`pnl_ok = false`), yet the run does not end there: a second attempt is
placed, and its stake has been doubled to 2.  This contradicts the claim
that an unresolved outcome ends the run with no further attempt and no
stake change. -/
theorem unresolved_ends_run_counterexample :
    (run_trade apiUnresolvedThenWin 1 2).1 =
      [⟨1, false, 0⟩, ⟨2, true, 1⟩] ∧
    (run_trade apiUnresolvedThenWin 1 2).2 = RunEnd.win := by
  norm_num [run_trade, run_trade_loop, apiUnresolvedThenWin]

/-- C1 (amended): in the classic loop an unresolved outcome
(`pnl_ok = false`) is handled exactly like a loss: the run does not end
there — whenever budget remains (`i < max_gales`) and the next placement
succeeds, attempt `i + 1` is started with exactly double the stake of
attempt `i`. -/
theorem unresolved_outcome_treated_as_loss (api : ℕ → AttemptOutcome)
    (amount : ℚ) (max_gales i : ℕ)
    (h : i < (run_trade api amount max_gales).1.length)
    (hun : ((run_trade api amount max_gales).1.get ⟨i, h⟩).pnlOk = false)
    (hbud : i < max_gales)
    (hplace : (api (i + 1)).placeOk = true) :
    (run_trade api amount max_gales).1.get? (i + 1) =
      some ⟨2 * ((run_trade api amount max_gales).1.get ⟨i, h⟩).stake,
        (api (i + 1)).pnlOk, (api (i + 1)).pnl⟩ := by
  simp only [run_trade] at h hun ⊢
  have hg := run_trade_loop_get api (max_gales + 1) amount 0 i h
  have hnw : ¬((api (0 + i)).pnlOk = true ∧ 0 < (api (0 + i)).pnl) := by
    rw [hg] at hun
    simp only at hun
    intro hc
    rw [hun] at hc
    exact Bool.false_ne_true hc.1
  have hext := run_trade_loop_extend api (max_gales + 1) amount 0 i h hnw
    (by omega) (by simpa using hplace)
  have hg2 := run_trade_loop_get api (max_gales + 1) amount 0 (i + 1) hext
  rw [List.get?_eq_get hext, hg2, hg]
  simp only [Nat.zero_add]
  congr 1
  ring_nf

/-- C1 (amended), witness at a concrete input: attempt 0 of
`run_trade apiUnresolvedThenWin 1 2` is unresolved and attempt 1 follows
with stake doubled from 1 to 2. -/
theorem unresolved_outcome_treated_as_loss_witness :
    (run_trade apiUnresolvedThenWin 1 2).1.get? 1 =
      some ⟨2 * ((run_trade apiUnresolvedThenWin 1 2).1.get ⟨0, by decide⟩).stake,
        (apiUnresolvedThenWin 1).pnlOk, (apiUnresolvedThenWin 1).pnl⟩ :=
  unresolved_outcome_treated_as_loss apiUnresolvedThenWin 1 2 0 (by decide)
    (by decide) (by decide) (by decide)

/-- C2: a classic run places at most `max_gales + 1` attempts, and no
recorded attempt that has a successor is a resolved win
(`pnl_ok` true with positive profit), so a win can only be the last
attempt of the run. -/
theorem classic_budget_and_win_only_last (api : ℕ → AttemptOutcome)
    (amount : ℚ) (max_gales : ℕ) :
    (run_trade api amount max_gales).1.length ≤ max_gales + 1 ∧
    ∀ (i : ℕ) (h : i + 1 < (run_trade api amount max_gales).1.length),
      ¬(((run_trade api amount max_gales).1.get
          ⟨i, Nat.lt_of_succ_lt h⟩).pnlOk = true ∧
        0 < ((run_trade api amount max_gales).1.get
          ⟨i, Nat.lt_of_succ_lt h⟩).pnl) := by
  constructor
  · exact run_trade_loop_length_le api (max_gales + 1) amount 0
  · intro i h
    simp only [run_trade] at h ⊢
    have hg := run_trade_loop_get api (max_gales + 1) amount 0 i
      (Nat.lt_of_succ_lt h)
    rw [hg]
    simpa using run_trade_loop_no_early_win api (max_gales + 1) amount 0 i h

/-- C2, witness at a concrete input: with all outcomes unresolved and
`max_gales = 2` the run records 3 ≤ 2 + 1 attempts, and attempt 0 (which
has a successor) is not a resolved win. -/
theorem classic_budget_and_win_only_last_witness :
    (run_trade apiAllLoss 1 2).1.length ≤ 2 + 1 ∧
    ¬(((run_trade apiAllLoss 1 2).1.get ⟨0, by decide⟩).pnlOk = true ∧
      0 < ((run_trade apiAllLoss 1 2).1.get ⟨0, by decide⟩).pnl) :=
  ⟨(classic_budget_and_win_only_last apiAllLoss 1 2).1,
   (classic_budget_and_win_only_last apiAllLoss 1 2).2 0 (by decide)⟩

/-- C5: in the classic loop every losing (or unresolved) attempt doubles
the stake, so attempt `n` wagers exactly `amount * 2 ^ n`. -/
theorem classic_stake_is_base_times_pow_two (api : ℕ → AttemptOutcome)
    (amount : ℚ) (max_gales n : ℕ)
    (h : n < (run_trade api amount max_gales).1.length) :
    ((run_trade api amount max_gales).1.get ⟨n, h⟩).stake = amount * 2 ^ n := by
  simp only [run_trade] at h ⊢
  rw [run_trade_loop_get api (max_gales + 1) amount 0 n h]

/-- C5, witness at a concrete input: the third attempt (n = 2) of a run
with base stake 1 wagers 1 * 2 ^ 2 = 4. -/
theorem classic_stake_is_base_times_pow_two_witness :
    ((run_trade apiAllLoss 1 2).1.get ⟨2, by decide⟩).stake = 1 * 2 ^ 2 :=
  classic_stake_is_base_times_pow_two apiAllLoss 1 2 2 (by decide)

/-! ## 7. Properties of the smart martingale ledger -/

/-- C3: with smart mode on, `get_trade_details` always budgets zero gales
(single shot) and stakes `base × multiplier ^ level` for the current
ledger level of the asset; at level 0 that is exactly the base stake. -/
theorem smart_mode_single_shot_stake (cfg : Config) (states : SmartStates)
    (asset : String) (base_amount : ℚ)
    (hs : cfg.smart_martingale = true) :
    (get_trade_details cfg states asset base_amount).2 = 0 ∧
    (get_trade_details cfg states asset base_amount).1 =
      base_amount * cfg.martingale_multiplier ^ ledger_level states asset := by
  have hs' : ¬(cfg.smart_martingale = false) := by simp [hs]
  by_cases h0 : ledger_level states asset = 0
  · simp [get_trade_details, hs', h0]
  · simp [get_trade_details, hs', h0]

/-- C3, witness at a concrete input: an unknown asset is at level 0, the
budget is 0 gales and the stake is the base stake 5 = 5 * 2 ^ 0. -/
theorem smart_mode_single_shot_stake_witness :
    (get_trade_details ⟨true, 2, 2⟩ (fun _ => none) "EURUSD" 5).2 = 0 ∧
    (get_trade_details ⟨true, 2, 2⟩ (fun _ => none) "EURUSD" 5).1 =
      5 * (⟨true, 2, 2⟩ : Config).martingale_multiplier ^
        ledger_level (fun _ => none) "EURUSD" :=
  smart_mode_single_shot_stake ⟨true, 2, 2⟩ (fun _ => none) "EURUSD" 5 rfl

/-- On WIN the ledger entry for the asset is reset to level 0. -/
lemma update_result_win_level (cfg : Config) (states : SmartStates)
    (asset : String) (hs : cfg.smart_martingale = true) :
    ledger_level (update_result cfg states asset "WIN") asset = 0 := by
  have hs' : ¬(cfg.smart_martingale = false) := by simp [hs]
  simp [update_result, hs', ledger_level]

/-- On LOSS the ledger entry increments below the ceiling and resets to 0
otherwise. -/
lemma update_result_loss_level (cfg : Config) (states : SmartStates)
    (asset : String) (hs : cfg.smart_martingale = true) :
    ledger_level (update_result cfg states asset "LOSS") asset =
      if ledger_level states asset < cfg.max_martingale_gales
      then ledger_level states asset + 1 else 0 := by
  have hs' : ¬(cfg.smart_martingale = false) := by simp [hs]
  have hlw : ("LOSS" : String) ≠ "WIN" := by decide
  by_cases hlt : ledger_level states asset < cfg.max_martingale_gales
  · rw [if_pos hlt]
    unfold ledger_level at hlt
    simp [update_result, hs', hlw, hlt, ledger_level]
  · rw [if_neg hlt]
    unfold ledger_level at hlt
    simp [update_result, hs', hlw, hlt, ledger_level]

/-- C4: with smart mode on, `update_result` resets the ledger to 0 on WIN,
increments it on LOSS while strictly below the ceiling, and resets it to 0
on LOSS at or above the ceiling; with ceiling 1 a LOSS at level 0 gives
level 1 and a second LOSS then gives level 0. -/
theorem smart_ledger_update (cfg : Config) (states : SmartStates)
    (asset : String) (hs : cfg.smart_martingale = true) :
    ledger_level (update_result cfg states asset "WIN") asset = 0 ∧
    (ledger_level states asset < cfg.max_martingale_gales →
      ledger_level (update_result cfg states asset "LOSS") asset =
        ledger_level states asset + 1) ∧
    (¬ ledger_level states asset < cfg.max_martingale_gales →
      ledger_level (update_result cfg states asset "LOSS") asset = 0) ∧
    (cfg.max_martingale_gales = 1 → ledger_level states asset = 0 →
      ledger_level (update_result cfg states asset "LOSS") asset = 1 ∧
      ledger_level
        (update_result cfg (update_result cfg states asset "LOSS") asset "LOSS")
        asset = 0) := by
  refine ⟨update_result_win_level cfg states asset hs, ?_, ?_, ?_⟩
  · intro hlt
    rw [update_result_loss_level cfg states asset hs, if_pos hlt]
  · intro hge
    rw [update_result_loss_level cfg states asset hs, if_neg hge]
  · intro hmax h0
    have h1 : ledger_level (update_result cfg states asset "LOSS") asset = 1 := by
      rw [update_result_loss_level cfg states asset hs, if_pos (by omega), h0]
    refine ⟨h1, ?_⟩
    rw [update_result_loss_level cfg (update_result cfg states asset "LOSS")
      asset hs, if_neg (by omega)]

/-- C4, witness at a concrete input: ceiling 1, fresh ledger: WIN keeps
level 0; LOSS moves 0 to 1; a second LOSS resets to 0. -/
theorem smart_ledger_update_witness :
    ledger_level (update_result ⟨true, 1, 2⟩ (fun _ => none) "GBPUSD" "WIN")
      "GBPUSD" = 0 ∧
    (ledger_level (fun _ => none) "GBPUSD" < 1 →
      ledger_level (update_result ⟨true, 1, 2⟩ (fun _ => none) "GBPUSD" "LOSS")
        "GBPUSD" = ledger_level (fun _ => none) "GBPUSD" + 1) ∧
    (¬ ledger_level (fun _ => none) "GBPUSD" < 1 →
      ledger_level (update_result ⟨true, 1, 2⟩ (fun _ => none) "GBPUSD" "LOSS")
        "GBPUSD" = 0) ∧
    (1 = 1 → ledger_level (fun _ => none) "GBPUSD" = 0 →
      ledger_level (update_result ⟨true, 1, 2⟩ (fun _ => none) "GBPUSD" "LOSS")
        "GBPUSD" = 1 ∧
      ledger_level (update_result ⟨true, 1, 2⟩
        (update_result ⟨true, 1, 2⟩ (fun _ => none) "GBPUSD" "LOSS")
        "GBPUSD" "LOSS") "GBPUSD" = 0) :=
  smart_ledger_update ⟨true, 1, 2⟩ (fun _ => none) "GBPUSD" rfl

/-! ## 8. Properties of the signal normalizer -/

/-- C6, counterexample: `parse_signal` accepts the line `03:40;;CALL;0`
and returns a signal whose expiry is 0 (not positive) and whose instrument
string is empty, so the canonical invariant `expiry_minutes > 0 ∧
instrument non-empty` does not hold for every accepted line. -/
theorem parse_signal_invariant_counterexample :
    parse_signal "03:40;;CALL;0" = some ⟨"03:40", "", "CALL", 0⟩ ∧
    ¬(0 < (Sig.mk "03:40" "" "CALL" 0).expiry) ∧
    (Sig.mk "03:40" "" "CALL" 0).pair = "" := by
  decide

/-- C6 (amended): every signal `parse_signal` returns has direction exactly
CALL or PUT and a time matching the `H:MM`/`HH:MM` pattern; its expiry is a
natural number that may be 0 and its instrument string may be empty. -/
theorem parse_signal_validated_fields (line : String) (sig : Sig)
    (h : parse_signal line = some sig) :
    (sig.direction = "CALL" ∨ sig.direction = "PUT") ∧
    timeFullMatch sig.time = true := by
  unfold parse_signal at h
  rcases hl : pySplit ';' (clean_signal_line line).data with _ | ⟨t0, tl1⟩
  · rw [hl] at h; exact absurd h (by simp)
  rcases tl1 with _ | ⟨p1, tl2⟩
  · rw [hl] at h; exact absurd h (by simp)
  rcases tl2 with _ | ⟨d2, tl3⟩
  · rw [hl] at h; exact absurd h (by simp)
  rcases tl3 with _ | ⟨e3, rest⟩
  · rw [hl] at h; exact absurd h (by simp)
  rw [hl] at h
  simp only at h
  by_cases hd : (e3.any Char.isDigit) = false
  · rw [if_pos hd] at h; exact absurd h (by simp)
  rw [if_neg hd] at h
  by_cases ht : timeFullMatch (String.mk (pyStrip t0)) = false
  · rw [if_pos ht] at h; exact absurd h (by simp)
  rw [if_neg ht] at h
  by_cases hdir : pyUpper d2 = "CALL".data ∨ pyUpper d2 = "PUT".data
  · rw [if_pos hdir] at h
    have hsig := (Option.some_inj.mp h).symm
    subst hsig
    constructor
    · rcases hdir with hc | hp
      · exact Or.inl (by simp only [hc])
      · exact Or.inr (by simp only [hp])
    · exact Bool.not_eq_false _ |>.mp ht
  · rw [if_neg hdir] at h; exact absurd h (by simp)

/-- C6 (amended), witness at a concrete input: the accepted line
`09:15;EURUSD;CALL;5` has direction CALL and a pattern-conforming time. -/
theorem parse_signal_validated_fields_witness :
    ((Sig.mk "09:15" "EURUSD" "CALL" 5).direction = "CALL" ∨
      (Sig.mk "09:15" "EURUSD" "CALL" 5).direction = "PUT") ∧
    timeFullMatch (Sig.mk "09:15" "EURUSD" "CALL" 5).time = true :=
  parse_signal_validated_fields "09:15;EURUSD;CALL;5" ⟨"09:15", "EURUSD", "CALL", 5⟩
    (by decide)

/-! ## 9. Properties of `parse_time_12h` -/

/-- C8: a clock-only time resolves to today whenever it is not in the past
or is past by less than the 1800-second grace window, and to tomorrow
whenever it is past by more than the grace window.  The hour/minute bounds
are the documented domain of the function (12-hour clock). -/
theorem parse_time_today_or_tomorrow (hour minute : ℕ) (am_pm : String)
    (current : Instant) (_hh1 : 1 ≤ hour) (_hh2 : hour ≤ 12)
    (_hm : minute ≤ 59) :
    ((current.us ≤ (to24h hour am_pm * 3600 + minute * 60) * 1000000 ∨
        current.us - (to24h hour am_pm * 3600 + minute * 60) * 1000000 <
          1800 * 1000000) →
      parse_time_12h hour minute am_pm current =
        ⟨current.day, (to24h hour am_pm * 3600 + minute * 60) * 1000000⟩) ∧
    (((to24h hour am_pm * 3600 + minute * 60) * 1000000 < current.us ∧
        1800 * 1000000 <
          current.us - (to24h hour am_pm * 3600 + minute * 60) * 1000000) →
      parse_time_12h hour minute am_pm current =
        ⟨current.day + 1, (to24h hour am_pm * 3600 + minute * 60) * 1000000⟩) := by
  unfold parse_time_12h
  constructor
  · intro hcase
    by_cases hpast : (to24h hour am_pm * 3600 + minute * 60) * 1000000 < current.us
    · rw [if_pos hpast, if_pos (by omega)]
    · rw [if_neg hpast]
  · rintro ⟨h1, h2⟩
    rw [if_pos h1, if_neg (by omega)]

/-- C8, witness at a concrete input: 9:30 AM with the current instant at
midnight of day 100 is not in the past and stays on day 100 at
09:30:00.000000. -/
theorem parse_time_today_or_tomorrow_witness :
    parse_time_12h 9 30 "AM" ⟨100, 0⟩ = ⟨100, 34200000000⟩ :=
  (parse_time_today_or_tomorrow 9 30 "AM" ⟨100, 0⟩ (by decide) (by decide)
    (by decide)).1 (Or.inl (by decide))

/-! ## 10. Properties of the WebSocket manager -/

/-- C7, counterexample: when the open flag never goes up, `start_websocket`
runs the full 10-second poll loop and then returns normally (`Except.ok`
with the timed-out loop state) — it does not fail with a
`ConnectionError`.  This contradicts the claim that a timed-out connect
does not return as if successful. -/
theorem connect_timeout_counterexample :
    start_websocket (fun _ => false) = Except.ok WaitOutcome.timedOut ∧
    start_websocket (fun _ => false) ≠
      Except.error ConnectionErr.connectionError := by
  refine ⟨rfl, fun hcon => ?_⟩
  simp [start_websocket] at hcon

/-- If the flag is down at every poll index up to 101 the wait loop times
out (polls beyond index 101 are never read, because the elapsed-time check
`100 * k > 10000` stops the loop at `k = 101`). -/
lemma ws_wait_loop_timeout (openAt : ℕ → Bool)
    (h : ∀ j, j ≤ 101 → openAt j = false) :
    ∀ fuel k, k ≤ 101 → ws_wait_loop openAt fuel k = .timedOut := by
  intro fuel
  induction fuel with
  | zero => intro k _; rfl
  | succ n ih =>
    intro k hk
    by_cases ht : 100 * k > 10000
    · simp [ws_wait_loop, h k hk, ht]
    · have hk1 : k + 1 ≤ 101 := by omega
      simp [ws_wait_loop, h k hk, ht, ih (k + 1) hk1]

/-- If the wait loop reports the flag open at poll `j`, the flag really was
read as open at `j`, and `j` is a poll the 10-second window admits. -/
lemma ws_wait_loop_opened (openAt : ℕ → Bool) :
    ∀ fuel k j, ws_wait_loop openAt fuel k = .opened j →
      openAt j = true ∧ (j = k ∨ 100 * (j - 1) ≤ 10000) := by
  intro fuel
  induction fuel with
  | zero => intro k j h; exact WaitOutcome.noConfusion h
  | succ n ih =>
    intro k j h
    simp only [ws_wait_loop] at h
    by_cases ho : openAt k = true
    · rw [if_pos ho] at h
      injection h with hkj
      subst hkj
      exact ⟨ho, Or.inl rfl⟩
    · rw [if_neg ho] at h
      by_cases ht : 100 * k > 10000
      · rw [if_pos ht] at h
        exact WaitOutcome.noConfusion h
      · rw [if_neg ht] at h
        rcases ih (k + 1) j h with ⟨hopen, hj⟩
        refine ⟨hopen, Or.inr ?_⟩
        rcases hj with rfl | hj
        · omega
        · exact hj

/-- C7 (amended): `start_websocket` polls the open flag at 100 ms
granularity against a 10-second timeout, but a timeout is not an error:
the method never returns `Except.error` (the source has no `raise`), a
never-open flag makes it return normally in the timed-out state after the
polls up to index 101, and an open report comes from a real flag read
within the window. -/
theorem connect_wait_bounded_never_raises (openAt : ℕ → Bool) :
    (∀ e, start_websocket openAt ≠ Except.error e) ∧
    ((∀ j, j ≤ 101 → openAt j = false) →
      start_websocket openAt = Except.ok WaitOutcome.timedOut) ∧
    (∀ j, start_websocket openAt = Except.ok (WaitOutcome.opened j) →
      openAt j = true ∧ j ≤ 101) := by
  refine ⟨fun e => by simp [start_websocket], ?_, ?_⟩
  · intro h
    unfold start_websocket
    rw [ws_wait_loop_timeout openAt h 102 0 (by omega)]
  · intro j h
    have h' : ws_wait_loop openAt 102 0 = .opened j := by
      simpa [start_websocket] using h
    rcases ws_wait_loop_opened openAt 102 0 j h' with ⟨hopen, hj⟩
    refine ⟨hopen, ?_⟩
    rcases hj with rfl | hj
    · omega
    · omega

/-- C7 (amended), witness at a concrete input: a flag that never opens
makes `start_websocket` return normally as timed out. -/
theorem connect_wait_bounded_never_raises_witness :
    start_websocket (fun k => decide (k = k + 1)) =
      Except.ok WaitOutcome.timedOut :=
  (connect_wait_bounded_never_raises (fun k => decide (k = k + 1))).2.1
    (fun j _ => by simp)

/-- C10: whatever `send_message` returns is exactly the `request_id` field
of the frame it transmitted: a non-empty caller-supplied identifier is used
verbatim, and an omitted one is replaced — in both the frame and the
return value — by the integer read from the fractional-seconds digits of
the clock string. -/
theorem send_message_returns_embedded_id (now name : String) (msg : PyVal)
    (request_id : String) (frame : Frame) (ret : PyVal)
    (h : send_message now name msg request_id = some (frame, ret)) :
    frame.request_id = ret ∧
    (request_id ≠ "" → ret = PyVal.str request_id) ∧
    (request_id = "" → ∃ n,
      pyIntDigits (((pySplit '.' now.data).get? 1).getD []) = some n ∧
      ret = PyVal.int n) := by
  unfold send_message at h
  by_cases hr : request_id = ""
  · rw [if_pos hr] at h
    rcases hfrac : (pySplit '.' now.data).get? 1 with _ | frac
    · rw [hfrac] at h; exact absurd h (by simp)
    · rw [hfrac] at h
      simp only at h
      rcases hint : pyIntDigits frac with _ | n
      · rw [hint] at h; exact absurd h (by simp)
      · rw [hint] at h
        simp only at h
        injection h with h1
        injection h1 with h2 h3
        subst h2
        subst h3
        exact ⟨rfl, fun hc => absurd hr hc, fun _ => ⟨n, hint, rfl⟩⟩
  · rw [if_neg hr] at h
    injection h with h1
    injection h1 with h2 h3
    subst h2
    subst h3
    exact ⟨rfl, fun _ => rfl, fun hc => absurd hc hr⟩

/-- C10, witness at a concrete input: an empty caller identifier with clock
string `1733.456` embeds and returns the generated integer 456; the frame
field and the return value agree. -/
theorem send_message_returns_embedded_id_witness :
    (Frame.mk "candles" (PyVal.str "payload") (PyVal.int 456)).request_id =
      PyVal.int 456 ∧
    (("" : String) ≠ "" → PyVal.int 456 = PyVal.str "") ∧
    (("" : String) = "" → ∃ n,
      pyIntDigits (((pySplit '.' ("1733.456" : String).data).get? 1).getD []) =
        some n ∧
      PyVal.int 456 = PyVal.int n) :=
  send_message_returns_embedded_id "1733.456" "candles" (PyVal.str "payload")
    "" ⟨"candles", PyVal.str "payload", PyVal.int 456⟩ (PyVal.int 456)
    (by decide)

/-! ## 11. Batch robustness of `parse_signals_from_text` -/

/-- The compact loop is the `filterMap` of the per-chunk function: each
chunk is processed independently. -/
lemma processChunks_eq_filterMap (l : List (String × String)) :
    processChunks l = l.filterMap chunkParse := by
  induction l with
  | nil => rfl
  | cons tb rest ih =>
    by_cases hb : pyContains "Trade:".data tb.2.data = true
    · simp [processChunks, chunkParse, hb, ih]
    · rcases hp : parse_signal (tb.1 ++ tb.2) with _ | sig
      · simp [processChunks, chunkParse, hb, hp, ih]
      · simp [processChunks, chunkParse, hb, hp, ih]

/-- C9: `parse_signal` is a total `Option`-valued function (its `try` wraps
the only raising operations), and the batch loop treats chunks
independently: when the block scan finds nothing, the result is exactly the
parseable chunks in order, and a chunk on which `parse_signal` returns
`None` (or that is skipped for holding the block keyword) is dropped
without affecting how the chunks around it are parsed. -/
theorem batch_is_exactly_parseable_chunks (text : String)
    (l r : List (String × String)) (bad : String × String) :
    (blockFindall text = [] →
      parse_signals_from_text text =
        (chunkPairs (timeSplit (text.data.length + 1) [] text.data)).filterMap
          chunkParse) ∧
    (chunkParse bad = none →
      processChunks (l ++ bad :: r) = processChunks (l ++ r)) := by
  constructor
  · intro hb
    unfold parse_signals_from_text
    rw [hb]
    simp [processChunks_eq_filterMap]
  · intro hbad
    rw [processChunks_eq_filterMap, processChunks_eq_filterMap,
      List.filterMap_append, List.filterMap_append, List.filterMap_cons, hbad]

/-- C9, witness at a concrete input: a two-signal compact text parses to
both signals, and inserting the unparseable chunk `03:00garbage` between
two good chunks leaves the other two results untouched. -/
theorem batch_is_exactly_parseable_chunks_witness :
    parse_signals_from_text "01:00;EURUSD;CALL;5 and 02:10;GBPJPY;PUT;1" =
      (chunkPairs (timeSplit
        (("01:00;EURUSD;CALL;5 and 02:10;GBPJPY;PUT;1" : String).data.length + 1)
        [] ("01:00;EURUSD;CALL;5 and 02:10;GBPJPY;PUT;1" : String).data)).filterMap
        chunkParse ∧
    processChunks [("01:00", ";EURUSD;CALL;5 "), ("03:00", "garbage"),
        ("02:10", ";GBPJPY;PUT;1")] =
      processChunks [("01:00", ";EURUSD;CALL;5 "), ("02:10", ";GBPJPY;PUT;1")] :=
  ⟨(batch_is_exactly_parseable_chunks
      "01:00;EURUSD;CALL;5 and 02:10;GBPJPY;PUT;1" [] [] ("", "")).1 (by decide),
   (batch_is_exactly_parseable_chunks ""
      [("01:00", ";EURUSD;CALL;5 ")] [("02:10", ";GBPJPY;PUT;1")]
      ("03:00", "garbage")).2 (by decide)⟩

end BreakingBad
